import Mathlib

/-!
Shallow embedding of the idaho_legislation_analysis scraping pipeline
(`config.py`, `scrape.py`) and proofs about its observable behaviour.

Python strings are modelled as Lean `String`s, with the string operations
the code uses (`str.strip`, `str.split(sep)[-1]`, `str.replace`) embedded
as executable Lean functions over the character list.  The filesystem and
the environment are modelled as explicit state records; fallible code
returns `Except`.
-/

namespace Idaho

/-- Python whitespace test for ASCII characters, as used by `str.strip()`. -/
def pyIsSpace (c : Char) : Bool :=
  c == ' ' || c == '\t' || c == '\n' || c == '\r' || c == '\x0b' || c == '\x0c'

/-- `str.strip()` on a character list: drop leading and trailing whitespace. -/
def stripList (l : List Char) : List Char :=
  ((l.dropWhile pyIsSpace).reverse.dropWhile pyIsSpace).reverse

/-- Embedding of Python `s.strip()`. -/
def pyStrip (s : String) : String :=
  String.mk (stripList s.data)

/-- Split a character list at every occurrence of `sep`
(Python `s.split(sep)` for a one-character separator: no collapsing,
empty string yields `[""]`). -/
def splitOnChar (sep : Char) : List Char → List (List Char)
  | [] => [[]]
  | c :: rest =>
    let r := splitOnChar sep rest
    if c == sep then [] :: r
    else
      match r with
      | [] => [[c]]
      | h :: t => (c :: h) :: t

/-- Embedding of Python `s.split(sep)[-1]` for a one-character separator
(the list returned by `split` is always non-empty). -/
def lastSegmentBy (sep : Char) (s : String) : String :=
  String.mk ((splitOnChar sep s.data).getLastD [])

/-- `url.split("/")[-1]`: the final path segment of a URL. -/
def lastSegment (s : String) : String := lastSegmentBy '/' s

/-- One pass of Python `s.replace(pat, rep)` (all non-overlapping
occurrences, left to right), with explicit fuel for structural recursion;
`fuel ≥ length of the remaining input` makes the cutoff unreachable. -/
def pyReplaceFuel (pat rep : List Char) : Nat → List Char → List Char
  | 0, s => s
  | _ + 1, [] => []
  | fuel + 1, c :: rest =>
    if pat ≠ [] ∧ pat.isPrefixOf (c :: rest) then
      rep ++ pyReplaceFuel pat rep fuel (rest.drop (pat.length - 1))
    else
      c :: pyReplaceFuel pat rep fuel rest

/-- Embedding of Python `s.replace(pat, rep)`. -/
def pyReplace (s pat rep : String) : String :=
  String.mk (pyReplaceFuel pat.data rep.data s.data.length s.data)

/-- Decidable equality for `Except`, so results of the embedded fallible
operations can be compared by `decide`. -/
instance instDecEqExcept {ε α : Type} [DecidableEq ε] [DecidableEq α] :
    DecidableEq (Except ε α) := fun x y =>
  match x, y with
  | .error a, .error b =>
    match decEq a b with
    | isTrue h => isTrue (h ▸ rfl)
    | isFalse h => isFalse (fun hh => h (Except.error.inj hh))
  | .error _, .ok _ => isFalse (fun hh => Except.noConfusion hh)
  | .ok _, .error _ => isFalse (fun hh => Except.noConfusion hh)
  | .ok a, .ok b =>
    match decEq a b with
    | isTrue h => isTrue (h ▸ rfl)
    | isFalse h => isFalse (fun hh => h (Except.ok.inj hh))

/-! ## config.py -/

/-- `DATA_DIR`-relative state visible to `config.py`: the `DATARUN`
environment variable (`none` = unset), the contents of the
`Data/.datarun` sidecar file (`none` = no such file), and the basenames
of the files present in `Data/`. -/
structure ConfigState where
  env : Option String
  sidecar : Option String
  files : List String
  deriving Repr, DecidableEq

/-- Python truthiness of `os.getenv("DATARUN")`: set and non-empty
(before any stripping). -/
def envTruthy : Option String → Bool
  | some s => s ≠ ""
  | none => false

/-- The ten-character date field `\d\x7b2\x7d_\d\x7b2\x7d_\d\x7b4\x7d` of the
enriched-file regex. -/
def isDateField (d : String) : Bool :=
  match d.data with
  | [a, b, u1, c, e, u2, f, g, h, i] =>
    a.isDigit && b.isDigit && u1 == '_' && c.isDigit && e.isDigit &&
    u2 == '_' && f.isDigit && g.isDigit && h.isDigit && i.isDigit
  | _ => false

/-- The glob filter `idaho_bills_enriched_*.jsonl` followed by the regex
search `idaho_bills_enriched_(\d\x7b2\x7d_\d\x7b2\x7d_\d\x7b4\x7d)\.jsonl$` on the
basename: the name must start with the literal prefix, end with `.jsonl`,
and its final 37 characters must be the prefix, a well-formed date field
and the suffix (the regex match is end-anchored and of fixed length).
Returns the captured date field. -/
def enrichedMatch (name : String) : Option String :=
  if "idaho_bills_enriched_".data.isPrefixOf name.data
      && ".jsonl".data.isSuffixOf name.data then
    let tail37 := List.drop (name.data.length - 37) name.data
    if "idaho_bills_enriched_".data.isPrefixOf tail37 then
      let d := String.mk ((tail37.drop 21).take 10)
      if isDateField d then some d else none
    else none
  else none

/-- Python `int(...)` on a string of decimal digits. -/
def digitsToNat (l : List Char) : Nat :=
  l.foldl (fun n c => n * 10 + (c.toNat - '0'.toNat)) 0

/-- The sort key of `_detect_datarun_from_files`:
`(int(d.split("_")[2]), int(d.split("_")[0]), int(d.split("_")[1]))`,
i.e. `(year, month, day)` of an `MM_DD_YYYY` string. -/
def dateKey (d : String) : Nat × Nat × Nat :=
  let parts := splitOnChar '_' d.data
  (digitsToNat (parts.getD 2 []),
   digitsToNat (parts.getD 0 []),
   digitsToNat (parts.getD 1 []))

/-- Strict lexicographic order on `(year, month, day)` keys. -/
def keyLt (a b : Nat × Nat × Nat) : Bool :=
  a.1 < b.1 || (a.1 == b.1 && (a.2.1 < b.2.1 || (a.2.1 == b.2.1 && a.2.2 < b.2.2)))

/-- Keep the later-dated of two identifiers (the earlier one on a
tie). -/
def laterOf (best d : String) : String :=
  if keyLt (dateKey best) (dateKey d) then d else best

/-- `matches.sort(key=dateKey, reverse=True); return matches[0]`:
a stable descending sort followed by taking the head returns the first
element, in original order, whose key is maximal. -/
def pickLatest : List String → Option String
  | [] => none
  | x :: xs => some (xs.foldl laterOf x)

/-- Embedding of `config._detect_datarun_from_files`: collect the date
field of every enriched-dataset filename, and return the one with the
latest `(year, month, day)` key (`none` when no file matches). -/
def _detect_datarun_from_files (files : List String) : Option String :=
  pickLatest (files.filterMap enrichedMatch)

/-- The sidecar tier of `get_datarun`: if the `.datarun` file exists,
read and strip it; yield the stripped contents when non-empty. -/
def sidecarYield (st : ConfigState) : Option String :=
  match st.sidecar with
  | some content =>
    let t := pyStrip content
    if t ≠ "" then some t else none
  | none => none

/-- Embedding of `config.get_datarun`.  `Except.error ()` stands for
`sys.exit(1)`. -/
def get_datarun (st : ConfigState) : Except Unit String :=
  if envTruthy st.env then
    .ok (pyStrip (st.env.getD ""))
  else
    match sidecarYield st with
    | some d => .ok d
    | none =>
      match _detect_datarun_from_files st.files with
      | some d => .ok d
      | none => .error ()

/-- Embedding of `config.save_datarun`: writes `value + "\n"` to the
sidecar file, overwriting it (directory creation and truncation are
implicit in replacing the `sidecar` field). -/
def save_datarun (value : String) (st : ConfigState) : ConfigState :=
  { st with sidecar := some (value ++ "\n") }

/-! ## scrape.py : HTML page model

A parsed page is modelled structurally: a cell carries its text content
and the `href` of its first `<a>` descendant (if any); a row carries its
optional `id` attribute and its `<td>` cells; a table is a list of rows.
`BeautifulSoup.get_text(strip=True)` on a cell is modelled by `pyStrip`
of its text. -/

structure Cell where
  text : String
  linkHref : Option String
  deriving Repr, DecidableEq

structure HRow where
  rowId : Option String
  cells : List Cell
  deriving Repr, DecidableEq

structure HTable where
  rows : List HRow
  deriving Repr, DecidableEq

def BASE_URL : String := "https://legislature.idaho.gov"

/-- A record appended by `scrape_idaho_legislation`:
`[bill_number, bill_title, status, detail_link, pdf_url]`. -/
structure BillRecord where
  bill_number : String
  bill_title : String
  status : String
  detail_link : String
  pdf_url : String
  deriving Repr, DecidableEq

/-- `table.find("tr", id=lambda x: x and x.startswith("bill"))`: the first
row whose `id` attribute is present, truthy and starts with `"bill"`. -/
def findBillRow (t : HTable) : Option HRow :=
  t.rows.find? (fun r =>
    match r.rowId with
    | some i => i ≠ "" && "bill".data.isPrefixOf i.data
    | none => false)

/-- The fixed PDF URL template of `scrape_idaho_legislation`. -/
def pdfUrlFor (bill_number : String) : String :=
  BASE_URL ++ "/wp-content/uploads/sessioninfo/2026" ++ "/legislation/" ++
    bill_number ++ ".pdf"

/-- The per-table body of the `scrape_idaho_legislation` loop.  `.ok none`
means the table is skipped (`continue`); `.error ()` is the uncaught
`TypeError` raised by `link_tag["href"]` when `cells[0].find("a")` found
no link. -/
def processTable (t : HTable) : Except Unit (Option BillRecord) :=
  match findBillRow t with
  | none => .ok none
  | some bill_row =>
    if bill_row.cells.length < 4 then .ok none
    else
      match ((bill_row.cells.getD 0 ⟨"", none⟩).linkHref) with
      | none => .error ()
      | some detail_link =>
        let bill_number := lastSegment detail_link
        let bill_title := pyStrip (bill_row.cells.getD 1 ⟨"", none⟩).text
        let status := pyStrip (bill_row.cells.getD 3 ⟨"", none⟩).text
        .ok (some ⟨bill_number, bill_title, status, detail_link, pdfUrlFor bill_number⟩)

/-- The `for table in mini_tables` loop: accumulate one record per
accepted table, in document order; an error in any iteration aborts the
whole call. -/
def scrapeTables : List HTable → Except Unit (List BillRecord)
  | [] => .ok []
  | t :: ts =>
    match processTable t with
    | .error e => .error e
    | .ok r =>
      match scrapeTables ts with
      | .error e => .error e
      | .ok rest =>
        match r with
        | none => .ok rest
        | some rec1 => .ok (rec1 :: rest)

/-- Embedding of the parsing part of `scrape_idaho_legislation` (the HTTP
fetch is modelled separately, in the retry/rate-limit trace model): the
input is the document-order list of tables with class `mini-data-table`;
the first two are dropped unconditionally. -/
def scrape_idaho_legislation (miniTables : List HTable) : Except Unit (List BillRecord) :=
  scrapeTables (miniTables.drop 2)

/-! ## scrape.py : sponsor parsing (`parse_detail_page` body) -/

/-- A detail page, reduced to the first table with class `bill-table`
(`none` when `soup.find` returns `None`). -/
structure DetailPage where
  billTable : Option HTable
  deriving Repr, DecidableEq

/-- The string transformation applied to the sponsor cell text:
`get_text(strip=True)` then `.replace("by ", "")` (all occurrences) then
`.strip()`. -/
def sponsorFromCellText (cellText : String) : String :=
  pyStrip (pyReplace (pyStrip cellText) "by " "")

/-- The parsing part of `parse_detail_page`, after a successful fetch.
`.error ()` is the uncaught `AttributeError` (no `bill-table`, or a table
with no row) or `IndexError` (fewer than 3 cells): a parse failure, which
is not a `requests.exceptions.RequestException` and hence never retried. -/
def parseSponsor (page : DetailPage) : Except Unit String :=
  match page.billTable with
  | none => .error ()
  | some t =>
    match t.rows with
    | [] => .error ()
    | row :: _ =>
      if row.cells.length < 3 then .error ()
      else .ok (sponsorFromCellText (row.cells.getD 2 ⟨"", none⟩).text)

/-! ## scrape.py : retry policy (tenacity decorator)

All three fetchers carry
`@retry(stop=stop_after_attempt(5), wait=wait_exponential(multiplier=1, min=4, max=30), retry=retry_if_exception_type(requests.exceptions.RequestException))`.
One HTTP attempt is abstracted by an oracle `script : Nat → FetchOutcome α`
giving the outcome of attempt `n` (attempts are numbered from 1). -/

/-- Outcome of a single attempt of the decorated function body:
a returned value, a `requests.exceptions.RequestException` (connection
error, timeout, or `raise_for_status` on a non-2xx response), or any
other exception (raised after a successful fetch, from parsing). -/
inductive FetchOutcome (α : Type) where
  | success (v : α)
  | netFailure (e : Nat)
  | parseFailure (e : Nat)
  deriving Repr, DecidableEq

/-- Result of the whole decorated call: a value, a `tenacity.RetryError`
carrying the last attempt's network failure (the spec's `FetchError`), or
a non-retried exception propagated to the caller. -/
inductive FetchResult (α : Type) where
  | ok (v : α)
  | fetchError (last : Nat)
  | parseError (e : Nat)
  deriving Repr, DecidableEq

/-- `tenacity.wait_exponential(multiplier=1, min=4, max=30)`: the sleep
after failed attempt `n` is `max(4, min(30, 1 * 2 ^ n))` seconds. -/
def waitExp (n : Nat) : Nat := max 4 (min 30 (2 ^ n))

/-- The tenacity attempt loop: run attempt `attempt` with `remaining`
attempts still allowed (including this one).  A `netFailure` with no
attempt left raises `fetchError` with that failure; otherwise sleep
`waitExp attempt` and retry.  A `parseFailure` is never retried.  Returns
the list of sleeps performed and the final result. -/
def retryRun (script : Nat → FetchOutcome α) (attempt : Nat) :
    Nat → List Nat × FetchResult α
  | 0 => ([], .fetchError 0)
  | remaining + 1 =>
    match script attempt with
    | .success v => ([], .ok v)
    | .parseFailure e => ([], .parseError e)
    | .netFailure e =>
      if remaining = 0 then ([], .fetchError e)
      else
        let rest := retryRun script (attempt + 1) remaining
        (waitExp attempt :: rest.1, rest.2)

/-- `stop_after_attempt(5)`: at most 5 attempts total, starting at 1. -/
def fetchWithRetry (script : Nat → FetchOutcome α) : List Nat × FetchResult α :=
  retryRun script 1 5

/-! ## scrape.py : rate limiter / retry decorator ordering

`@sleep_and_retry @limits(calls=10, period=1)` admits one call through
the 10-per-rolling-second limiter.  On `parse_detail_page` and
`scrape_idaho_legislation` the `@retry` decorator is OUTERMOST, so each
attempt of the loop re-enters the rate limiter; on `download_pdf` the
rate-limiter decorators are outermost, so the limiter is passed once and
the whole attempt loop runs inside. -/

def RATE_CALLS : Nat := 10
def RATE_PERIOD : Nat := 1

/-- Observable events of one decorated call: an admission through the
rate limiter, or the issuing of HTTP attempt `n`. -/
inductive FetchEv where
  | rateLimit
  | httpAttempt (n : Nat)
  deriving Repr, DecidableEq

/-- Trace of the tenacity attempt loop where one attempt `n` emits
`perAttempt n` (the events of whatever the `@retry` decorator wraps). -/
def attemptsTrace (script : Nat → FetchOutcome α) (perAttempt : Nat → List FetchEv)
    (attempt : Nat) : Nat → List FetchEv
  | 0 => []
  | remaining + 1 =>
    perAttempt attempt ++
    match script attempt with
    | .success _ => []
    | .parseFailure _ => []
    | .netFailure _ =>
      if remaining = 0 then []
      else attemptsTrace script perAttempt (attempt + 1) remaining

/-- Event trace of `parse_detail_page` / `scrape_idaho_legislation`:
`retry( sleep_and_retry( limits( body )))` — every attempt first passes
the rate limiter. -/
def retryOverRateLimitTrace (script : Nat → FetchOutcome α) : List FetchEv :=
  attemptsTrace script (fun n => [.rateLimit, .httpAttempt n]) 1 5

/-- Event trace of `download_pdf`:
`sleep_and_retry( limits( retry( body )))` — the rate limiter is passed
once, before the attempt loop. -/
def rateLimitOverRetryTrace (script : Nat → FetchOutcome α) : List FetchEv :=
  FetchEv.rateLimit :: attemptsTrace script (fun n => [.httpAttempt n]) 1 5

/-- Number of rate-limiter admissions in a trace. -/
def countRateLimit (t : List FetchEv) : Nat :=
  t.countP (fun e => e matches .rateLimit)

/-- Number of HTTP attempts in a trace. -/
def countHttp (t : List FetchEv) : Nat :=
  t.countP (fun e => e matches .httpAttempt _)

/-! ## scrape.py : `main` pipeline orchestration -/

/-- Observable events of one `main()` run. `sidecarWrite v` is the call
`save_datarun(v)`; the fetch events are the three decorated fetchers;
`csvWrite` is `bill_df.to_csv`; `sessionClose` is the `finally:
session.close()`. -/
inductive PipeEv where
  | sidecarWrite (value : String)
  | indexFetch
  | detailFetch (link : String)
  | pdfFetch (url : String)
  | csvWrite (run : String)
  | sessionClose
  deriving Repr, DecidableEq

/-- The sponsor loop of `main`: `parse_detail_page(session, link) if link
else ""` for each record in order; an exhausted-retries failure raises
and aborts the loop. -/
def detailLoop (oracle : String → Except Unit String) :
    List BillRecord → List PipeEv × Bool
  | [] => ([], true)
  | r :: rs =>
    if r.detail_link = "" then detailLoop oracle rs
    else
      match oracle r.detail_link with
      | .error _ => ([.detailFetch r.detail_link], false)
      | .ok _ =>
        let rest := detailLoop oracle rs
        (.detailFetch r.detail_link :: rest.1, rest.2)

/-- The PDF loop of `main`: `download_pdf(session, pdf_url, dir_path)`
for each record in order. -/
def pdfLoop (oracle : String → Except Unit String) :
    List BillRecord → List PipeEv × Bool
  | [] => ([], true)
  | r :: rs =>
    match oracle r.pdf_url with
    | .error _ => ([.pdfFetch r.pdf_url], false)
    | .ok _ =>
      let rest := pdfLoop oracle rs
      (.pdfFetch r.pdf_url :: rest.1, rest.2)

/-- The run identifier chosen by `main`:
`os.getenv("DATARUN", "").strip() or datetime.now().strftime("%m_%d_%Y")`. -/
def mainDatarun (env : Option String) (today : String) : String :=
  let d := pyStrip (env.getD "")
  if d = "" then today else d

/-- Embedding of `scrape.main()` as an event trace plus a success flag.
`save_datarun` runs first, before any fetching; the index fetch outcome,
the per-link sponsor oracle and the per-url PDF oracle abstract the three
decorated fetchers; any failure propagates, skipping the CSV write, but
the session is always closed (`finally`). -/
def mainRun (env : Option String) (today : String)
    (indexOutcome : Except Unit (List BillRecord))
    (sponsorOracle : String → Except Unit String)
    (pdfOracle : String → Except Unit String) : List PipeEv × Bool :=
  let datarun := mainDatarun env today
  let pre : List PipeEv := [.sidecarWrite datarun, .indexFetch]
  match indexOutcome with
  | .error _ => (pre ++ [.sessionClose], false)
  | .ok records =>
    let d := detailLoop sponsorOracle records
    if d.2 then
      let p := pdfLoop pdfOracle records
      if p.2 then (pre ++ d.1 ++ p.1 ++ [.csvWrite datarun, .sessionClose], true)
      else (pre ++ d.1 ++ p.1 ++ [.sessionClose], false)
    else (pre ++ d.1 ++ [.sessionClose], false)

/-- Number of `save_datarun` calls in a pipeline trace. -/
def countSidecarWrites (t : List PipeEv) : Nat :=
  t.countP (fun e => e matches .sidecarWrite _)

/-! ## scrape.py : `download_pdf` file writing -/

def CHUNK_SIZE : Nat := 8192

/-- `response.iter_content(chunk_size=n)`: split the body into
consecutive chunks of `n` bytes (the last one possibly shorter), with
explicit fuel; `fuel ≥ length of the body` makes the cutoff unreachable
for `n ≥ 1`. -/
def chunkFuel (n : Nat) : Nat → List Nat → List (List Nat)
  | _, [] => []
  | 0, s => [s]
  | fuel + 1, c :: rest => ((c :: rest).take n) :: chunkFuel n fuel ((c :: rest).drop n)

/-- The chunk stream produced by `iter_content(chunk_size=n)`. -/
def iterContent (n : Nat) (body : List Nat) : List (List Nat) :=
  chunkFuel n body.length body

/-- Embedding of the file-writing part of `download_pdf` (the fetch is
modelled by the retry/rate-limit traces above; `body` is the response
body as bytes).  The filesystem is a map from path to contents;
`open(path, "wb")` truncates whatever was there and the chunk loop
appends each chunk, so the written file is the concatenation of the
chunks.  Returns `pdf_local_path` and the updated filesystem. -/
def download_pdf (fs : String → Option (List Nat)) (url dirPath : String)
    (body : List Nat) : String × (String → Option (List Nat)) :=
  let pdf_local_path := dirPath ++ "/" ++ lastSegment url
  let content := (iterContent CHUNK_SIZE body).foldl (fun a c => a ++ c) []
  (pdf_local_path, fun p => if p = pdf_local_path then some content else fs p)

/-! ## C1 : resolution-tier priority of `get_datarun` -/

/-- C1 (amended): `resolve()` returns the trimmed override whenever the
override is set and non-empty BEFORE trimming — a whitespace-only
override therefore yields the trimmed, empty value instead of falling
through to the sidecar tier; otherwise it returns the sidecar file's
trimmed contents when the file exists and is non-empty after trimming;
otherwise the directory-scan result; and it exits with an error iff the
override is unset or the empty string, the sidecar tier yields nothing,
and the directory scan yields nothing. -/
theorem c1_resolution_priority (st : ConfigState) :
    (∀ d, st.env = some d → d ≠ "" → get_datarun st = .ok (pyStrip d)) ∧
    (envTruthy st.env = false →
      ∀ t, sidecarYield st = some t → get_datarun st = .ok t) ∧
    (envTruthy st.env = false → sidecarYield st = none →
      ∀ d, _detect_datarun_from_files st.files = some d → get_datarun st = .ok d) ∧
    (get_datarun st = .error () ↔
      envTruthy st.env = false ∧ sidecarYield st = none ∧
        _detect_datarun_from_files st.files = none) := by
  refine ⟨?_, ?_, ?_, ?_⟩
  · intro d hd hne
    simp [get_datarun, envTruthy, hd, hne]
  · intro henv t ht
    simp [get_datarun, henv, ht]
  · intro henv hs d hd
    simp [get_datarun, henv, hs, hd]
  · cases he : envTruthy st.env with
    | true => simp [get_datarun, he]
    | false =>
      cases hs : sidecarYield st with
      | some t => simp [get_datarun, he, hs]
      | none =>
        cases hd : _detect_datarun_from_files st.files with
        | some d => simp [get_datarun, he, hs, hd]
        | none => simp [get_datarun, he, hs, hd]

/-- C1 counterexample: with the override set to three spaces (whitespace
only) and a sidecar file containing `03_15_2026`, the claim says
resolution falls through to the sidecar tier; the code instead returns
the stripped override — the empty string — because truthiness is tested
before stripping. -/
theorem c1_counterexample :
    get_datarun ⟨some "   ", some "03_15_2026\n", []⟩ = .ok "" ∧
    (Except.ok "" : Except Unit String) ≠ .ok "03_15_2026" :=
  ⟨by decide, by decide⟩

/-- C1 witness: with the override absent and a sidecar containing a
padded value, resolution returns the sidecar's trimmed contents. -/
theorem c1_witness :
    get_datarun ⟨none, some " 03_15_2026 \n", []⟩ = .ok "03_15_2026" :=
  (c1_resolution_priority ⟨none, some " 03_15_2026 \n", []⟩).2.1 rfl
    "03_15_2026" (by decide)

/-! ## C2 : rate limiter / retry ordering -/

/-- In the retry-outermost composition, rate-limiter admissions and HTTP
attempts are emitted in pairs, so their counts agree. -/
lemma countRateLimit_paired (script : Nat → FetchOutcome α) :
    ∀ (r a : Nat),
      countRateLimit (attemptsTrace script (fun n => [.rateLimit, .httpAttempt n]) a r) =
        countHttp (attemptsTrace script (fun n => [.rateLimit, .httpAttempt n]) a r)
  | 0, a => rfl
  | r + 1, a => by
    simp only [attemptsTrace]
    cases script a with
    | success v =>
      simp [countRateLimit, countHttp, List.countP_append, List.countP_cons]
    | parseFailure e =>
      simp [countRateLimit, countHttp, List.countP_append, List.countP_cons]
    | netFailure e =>
      by_cases hr : r = 0
      · subst hr
        simp [countRateLimit, countHttp, List.countP_append, List.countP_cons]
      · have ih := countRateLimit_paired script r (a + 1)
        simp only [countRateLimit, countHttp, List.countP_append, hr, if_false] at *
        simp [List.countP_cons, ih]

/-- In the rate-limiter-outermost composition, the attempt loop itself
emits no rate-limiter admissions. -/
lemma countRateLimit_inner_zero (script : Nat → FetchOutcome α) :
    ∀ (r a : Nat),
      countRateLimit (attemptsTrace script (fun n => [.httpAttempt n]) a r) = 0
  | 0, a => rfl
  | r + 1, a => by
    simp only [attemptsTrace]
    cases script a with
    | success v => simp [countRateLimit, List.countP_append, List.countP_cons]
    | parseFailure e => simp [countRateLimit, List.countP_append, List.countP_cons]
    | netFailure e =>
      by_cases hr : r = 0
      · subst hr
        simp [countRateLimit, List.countP_append, List.countP_cons]
      · have ih := countRateLimit_inner_zero script r (a + 1)
        simp only [countRateLimit, List.countP_append, hr, if_false] at *
        simp [List.countP_cons, ih]

/-- C2 (amended): `parse_detail_page` and `scrape_idaho_legislation`
have the `@retry` decorator outermost, so every attempt — the first and
each retry — passes through the 10-calls-per-rolling-second rate limiter
before its HTTP request (as many limiter admissions as HTTP attempts);
`download_pdf` instead has the rate-limiter decorators outermost, so the
limiter is passed exactly once per call, before the whole attempt loop,
and its retried attempts do not count against the rate budget again. -/
theorem c2_rate_limiter_ordering {α : Type} (script : Nat → FetchOutcome α) :
    countRateLimit (retryOverRateLimitTrace script) =
      countHttp (retryOverRateLimitTrace script) ∧
    countRateLimit (rateLimitOverRetryTrace script) = 1 ∧
    1 ≤ countHttp (rateLimitOverRetryTrace script) := by
  refine ⟨countRateLimit_paired script 5 1, ?_, ?_⟩
  · have h := countRateLimit_inner_zero script 5 1
    simp only [rateLimitOverRetryTrace, countRateLimit, List.countP_cons] at *
    simp [h]
  · simp only [rateLimitOverRetryTrace, countHttp, List.countP_cons]
    simp only [attemptsTrace]
    cases script 1 <;>
      simp [List.countP_append, List.countP_cons]

/-- Failure pattern for the C2 counterexample: the first four attempts
raise a network failure, the fifth succeeds. -/
def c2FlakyScript : Nat → FetchOutcome Nat := fun i =>
  if i ≤ 4 then .netFailure i else .success 0

/-- C2 counterexample: a `download_pdf` call whose first four attempts
fail makes five HTTP attempts but passes the rate limiter only once —
its retries do not pass through the rate limiter again, contrary to the
claim that every retry attempt of every fetch operation does. -/
theorem c2_counterexample :
    countHttp (rateLimitOverRetryTrace c2FlakyScript) = 5 ∧
    countRateLimit (rateLimitOverRetryTrace c2FlakyScript) = 1 ∧
    (1 : Nat) ≠ 5 :=
  ⟨by decide, by decide, by decide⟩

/-! ## C3 : retry policy of the tenacity decorator -/

/-- C3: every fetch operation retries only network/transport failures
(`requests.exceptions.RequestException`), making at most 5 attempts,
with backoff sleeps that start at 4 seconds and stay within [4, 30]
seconds; a call failing four times and succeeding on the fifth attempt
returns the successful result after sleeping 4, 4, 8, 16 seconds; one
failing all five attempts raises the retries-exhausted error carrying
the last failure; an attempt that fetched successfully but raised a
parse failure is never retried — the call stops there, with no further
sleeps, and propagates the parse failure. -/
theorem c3_retry_policy (script : Nat → FetchOutcome Nat) :
    (∀ v, (∀ i, 1 ≤ i → i ≤ 4 → ∃ e, script i = .netFailure e) →
      script 5 = .success v →
      fetchWithRetry script = ([4, 4, 8, 16], .ok v)) ∧
    ((∀ i, 1 ≤ i → i ≤ 4 → ∃ e, script i = .netFailure e) →
      ∀ e5, script 5 = .netFailure e5 →
      fetchWithRetry script = ([4, 4, 8, 16], .fetchError e5)) ∧
    (∀ k e, 1 ≤ k → k ≤ 5 →
      (∀ i, 1 ≤ i → i < k → ∃ e', script i = .netFailure e') →
      script k = .parseFailure e →
      fetchWithRetry script =
        ((List.range (k - 1)).map (fun t => waitExp (t + 1)), .parseError e)) ∧
    (∀ n, 1 ≤ n → 4 ≤ waitExp n ∧ waitExp n ≤ 30) ∧
    waitExp 1 = 4 := by
  refine ⟨?_, ?_, ?_, ?_, by decide⟩
  · intro v h h5
    obtain ⟨e1, h1⟩ := h 1 (by norm_num) (by norm_num)
    obtain ⟨e2, h2⟩ := h 2 (by norm_num) (by norm_num)
    obtain ⟨e3, h3⟩ := h 3 (by norm_num) (by norm_num)
    obtain ⟨e4, h4⟩ := h 4 (by norm_num) (by norm_num)
    simp [fetchWithRetry, retryRun, h1, h2, h3, h4, h5, waitExp]
  · intro h e5 h5
    obtain ⟨e1, h1⟩ := h 1 (by norm_num) (by norm_num)
    obtain ⟨e2, h2⟩ := h 2 (by norm_num) (by norm_num)
    obtain ⟨e3, h3⟩ := h 3 (by norm_num) (by norm_num)
    obtain ⟨e4, h4⟩ := h 4 (by norm_num) (by norm_num)
    simp [fetchWithRetry, retryRun, h1, h2, h3, h4, h5, waitExp]
  · intro k e hk1 hk5 hprev hk
    interval_cases k
    · simp [fetchWithRetry, retryRun, hk]
    · obtain ⟨e1, h1⟩ := hprev 1 (by norm_num) (by norm_num)
      simp [fetchWithRetry, retryRun, h1, hk, waitExp, List.range_succ]
    · obtain ⟨e1, h1⟩ := hprev 1 (by norm_num) (by norm_num)
      obtain ⟨e2, h2⟩ := hprev 2 (by norm_num) (by norm_num)
      simp [fetchWithRetry, retryRun, h1, h2, hk, waitExp, List.range_succ]
    · obtain ⟨e1, h1⟩ := hprev 1 (by norm_num) (by norm_num)
      obtain ⟨e2, h2⟩ := hprev 2 (by norm_num) (by norm_num)
      obtain ⟨e3, h3⟩ := hprev 3 (by norm_num) (by norm_num)
      simp [fetchWithRetry, retryRun, h1, h2, h3, hk, waitExp, List.range_succ]
    · obtain ⟨e1, h1⟩ := hprev 1 (by norm_num) (by norm_num)
      obtain ⟨e2, h2⟩ := hprev 2 (by norm_num) (by norm_num)
      obtain ⟨e3, h3⟩ := hprev 3 (by norm_num) (by norm_num)
      obtain ⟨e4, h4⟩ := hprev 4 (by norm_num) (by norm_num)
      simp [fetchWithRetry, retryRun, h1, h2, h3, h4, hk, waitExp, List.range_succ]
  · intro n hn
    constructor
    · simp [waitExp]
    · have h2 : 2 ^ 1 ≤ 2 ^ n := Nat.pow_le_pow_right (by norm_num) hn
      simp only [waitExp]
      omega

/-- Failure pattern for the C3 witness: four network failures, then
success. -/
def c3Script : Nat → FetchOutcome Nat := fun i =>
  if i ≤ 4 then .netFailure i else .success 42

/-- C3 witness: on the fail-four-then-succeed pattern, the decorated
call sleeps 4, 4, 8, 16 seconds and returns the fifth attempt's
result. -/
theorem c3_witness : fetchWithRetry c3Script = ([4, 4, 8, 16], .ok 42) :=
  (c3_retry_policy c3Script).1 42
    (fun i h1 h2 => ⟨i, by interval_cases i <;> rfl⟩) rfl

/-! ## C4, C5 : index scraping

Concrete page fixtures (mirroring the repository's test fixtures). -/

/-- A decorative `mini-data-table` block with no bill-prefixed row. -/
def fixtureDeco : HTable := ⟨[⟨none, [⟨"skip", none⟩]⟩]⟩

/-- A valid bill block for `H0001`. -/
def fixtureH0001 : HTable :=
  ⟨[⟨some "billH0001",
     [⟨"H0001", some "/sessioninfo/2026/legislation/H0001"⟩,
      ⟨"Test Bill Title", none⟩, ⟨"01/15/2026", none⟩,
      ⟨"Introduced", none⟩]⟩]⟩

/-- A valid bill block for `S1001`. -/
def fixtureS1001 : HTable :=
  ⟨[⟨some "billS1001",
     [⟨"S1001", some "/sessioninfo/2026/legislation/S1001"⟩,
      ⟨"Another Bill", none⟩, ⟨"01/20/2026", none⟩,
      ⟨"Passed", none⟩]⟩]⟩

/-- A malformed block whose row lacks the `bill`-prefixed id. -/
def fixtureNoBillId : HTable := ⟨[⟨none, [⟨"no bill id prefix", none⟩]⟩]⟩

/-- A malformed block whose bill-prefixed row has 4 cells but no link in
cell 0. -/
def fixtureNoLink : HTable :=
  ⟨[⟨some "billX9999",
     [⟨"X9999", none⟩, ⟨"Title", none⟩, ⟨"detail", none⟩,
      ⟨"Status", none⟩]⟩]⟩

/-- A malformed block whose bill-prefixed row has only 3 cells. -/
def fixtureShortRow : HTable :=
  ⟨[⟨some "billZ0001",
     [⟨"Z0001", some "/sessioninfo/2026/legislation/Z0001"⟩,
      ⟨"T", none⟩, ⟨"x", none⟩]⟩]⟩

/-- The record the scraper emits for `fixtureH0001`. -/
def recH0001 : BillRecord :=
  ⟨"H0001", "Test Bill Title", "Introduced",
   "/sessioninfo/2026/legislation/H0001", pdfUrlFor "H0001"⟩

/-- The record the scraper emits for `fixtureS1001`. -/
def recS1001 : BillRecord :=
  ⟨"S1001", "Another Bill", "Passed",
   "/sessioninfo/2026/legislation/S1001", pdfUrlFor "S1001"⟩

/-- Modelled on the wording of C4: the record a kept block yields — take
the row whose id attribute begins with the literal prefix `bill`; it
qualifies when it has at least 4 cells and its first cell carries a
link; `bill_number` is the final path segment of the cell-0 link's href,
the title comes from cell 1, the status from cell 3, and `document_url`
from the fixed base-path template plus the bill number. -/
def extractRecordSpec (t : HTable) : Option BillRecord :=
  match findBillRow t with
  | none => none
  | some r =>
    if r.cells.length < 4 then none
    else
      match (r.cells.getD 0 ⟨"", none⟩).linkHref with
      | none => none
      | some href =>
        let n := lastSegment href
        some ⟨n, pyStrip (r.cells.getD 1 ⟨"", none⟩).text,
          pyStrip (r.cells.getD 3 ⟨"", none⟩).text, href, pdfUrlFor n⟩

/-- A block on which the loop body does not raise produces exactly the
record described by the claim. -/
lemma processTable_eq_spec (t : HTable) (h : processTable t ≠ .error ()) :
    processTable t = .ok (extractRecordSpec t) := by
  cases hb : findBillRow t with
  | none => simp [processTable, extractRecordSpec, hb]
  | some r =>
    by_cases hlen : r.cells.length < 4
    · simp [processTable, extractRecordSpec, hb, hlen]
    · cases hl : (r.cells.getD 0 ⟨"", none⟩).linkHref with
      | none =>
        exact absurd (by simp only [processTable, hb, if_neg hlen, hl]) h
      | some href =>
        simp only [processTable, extractRecordSpec, hb, if_neg hlen, hl]

/-- When no block raises, the scraper's loop collects, in document
order, exactly the records described by the claim. -/
lemma scrapeTables_eq_spec : ∀ ts : List HTable,
    (∀ t ∈ ts, processTable t ≠ .error ()) →
    scrapeTables ts = .ok (ts.filterMap extractRecordSpec)
  | [], _ => rfl
  | t :: ts, h => by
    have ht := processTable_eq_spec t (h t (by simp))
    have ih := scrapeTables_eq_spec ts (fun u hu => h u (by simp [hu]))
    simp only [scrapeTables, ht, ih, List.filterMap_cons]
    cases hext : extractRecordSpec t with
    | none => simp
    | some r => simp

/-- C4: the index scraper drops the first two mini-table blocks
unconditionally and — provided every kept block whose bill-prefixed row
qualifies carries a link in its first cell, so no block raises — emits
one record per qualifying block in document order, with the fields built
exactly as the claim describes; in particular two decorative tables
followed by two valid bill blocks and one block whose row lacks the
bill-prefixed id yield exactly the two expected records, in document
order. -/
theorem c4_index_scraper (tables : List HTable)
    (hlinks : ∀ t ∈ tables.drop 2, processTable t ≠ .error ()) :
    scrape_idaho_legislation tables =
      .ok ((tables.drop 2).filterMap extractRecordSpec) ∧
    scrape_idaho_legislation
        [fixtureDeco, fixtureDeco, fixtureH0001, fixtureS1001, fixtureNoBillId] =
      .ok [recH0001, recS1001] :=
  ⟨scrapeTables_eq_spec _ hlinks, by decide⟩

/-- C4 witness: the general field description instantiated on the
concrete five-block listing page. -/
theorem c4_witness :
    scrape_idaho_legislation
        [fixtureDeco, fixtureDeco, fixtureH0001, fixtureS1001, fixtureNoBillId] =
      .ok (([fixtureDeco, fixtureDeco, fixtureH0001, fixtureS1001,
        fixtureNoBillId].drop 2).filterMap extractRecordSpec) :=
  (c4_index_scraper _ (by decide)).1

/-- C5 (amended): a block whose bill-prefixed row is absent, or whose
bill-prefixed row has fewer than 4 cells, is silently skipped — removing
it from the listing leaves the scrape result unchanged; but a
bill-prefixed row with at least 4 cells whose first cell contains no
link is NOT handled: it raises an uncaught error that aborts the whole
index scrape. -/
theorem c5_malformed_blocks (pre post : List HTable) (t : HTable)
    (h : findBillRow t = none ∨
      ∃ r, findBillRow t = some r ∧ r.cells.length < 4) :
    processTable t = .ok none ∧
    scrapeTables (pre ++ t :: post) = scrapeTables (pre ++ post) ∧
    scrape_idaho_legislation
        [fixtureDeco, fixtureDeco, fixtureH0001, fixtureNoLink] = .error () := by
  have hskip : processTable t = .ok none := by
    rcases h with hb | ⟨r, hb, hlen⟩
    · simp [processTable, hb]
    · simp [processTable, hb, hlen]
  refine ⟨hskip, ?_, by decide⟩
  induction pre with
  | nil =>
    simp only [List.nil_append, scrapeTables, hskip]
    cases hsp : scrapeTables post <;> simp
  | cons p ps ih =>
    simp only [List.cons_append, scrapeTables, List.append_eq, ih]

/-- C5 counterexample: on a listing page with the two decorative tables,
one valid bill block and one block whose bill-prefixed row has 4 cells
but no link in its first cell, the claim says the malformed block is
silently skipped and the scrape returns the one valid record; the code
raises the uncaught `TypeError` from `link_tag["href"]` and the whole
scrape aborts instead. -/
theorem c5_counterexample :
    scrape_idaho_legislation
        [fixtureDeco, fixtureDeco, fixtureH0001, fixtureNoLink] = .error () ∧
    (Except.error () : Except Unit (List BillRecord)) ≠ .ok [recH0001] :=
  ⟨by decide, by decide⟩

/-- C5 witness: a bill-prefixed row with only three cells is skipped and
its block's removal leaves the scrape unchanged. -/
theorem c5_witness :
    processTable fixtureShortRow = .ok none ∧
    scrapeTables ([fixtureDeco] ++ fixtureShortRow :: [fixtureH0001]) =
      scrapeTables ([fixtureDeco] ++ [fixtureH0001]) :=
  ⟨(c5_malformed_blocks [fixtureDeco] [fixtureH0001] fixtureShortRow
      (Or.inr ⟨_, rfl, by decide⟩)).1,
   (c5_malformed_blocks [fixtureDeco] [fixtureH0001] fixtureShortRow
      (Or.inr ⟨_, rfl, by decide⟩)).2.1⟩

/-! ## C6 : sponsor-cell text processing -/

/-- Modelled on the wording of C6: strip whitespace, remove only a
LEADING literal `by ` prefix if present (leaving interior occurrences
intact), strip whitespace again. -/
def sponsorSpecLeadingOnly (cellText : String) : String :=
  let t := pyStrip cellText
  let t2 :=
    if "by ".data.isPrefixOf t.data then String.mk (t.data.drop 3) else t
  pyStrip t2

/-- C6 counterexample: on cell text whose sponsor name itself contains
the substring `by ` (`"by Digby Smith"`), the claim's leading-prefix
removal yields `"Digby Smith"`, but the code's
`sponsor_text.replace("by ", "")` removes every occurrence and yields
`"DigSmith"`. -/
theorem c6_counterexample :
    sponsorFromCellText "by Digby Smith" = "DigSmith" ∧
    sponsorSpecLeadingOnly "by Digby Smith" = "Digby Smith" ∧
    sponsorFromCellText "by Digby Smith" ≠
      sponsorSpecLeadingOnly "by Digby Smith" :=
  ⟨by decide, by decide, by decide⟩

/-- C6 (amended): `scrape_sponsor` locates the `bill-table` table, takes
its first row's third cell text, strips whitespace, removes EVERY
occurrence of the literal substring `by ` (not only a leading one), and
strips whitespace again; cell text `"by   Sen. Jones  "` still yields
exactly `"Sen. Jones"`. -/
theorem c6_sponsor_parsing (page : DetailPage) (t : HTable) (row : HRow)
    (rest : List HRow) (ht : page.billTable = some t)
    (hrows : t.rows = row :: rest) (hc : ¬row.cells.length < 3) :
    parseSponsor page =
      .ok (pyStrip (pyReplace (pyStrip (row.cells.getD 2 ⟨"", none⟩).text)
        "by " "")) ∧
    sponsorFromCellText "by   Sen. Jones  " = "Sen. Jones" := by
  constructor
  · simp [parseSponsor, ht, hrows, hc, sponsorFromCellText]
  · decide

/-- The detail-page fixture with sponsor cell `"by   Sen. Jones  "`. -/
def fixtureDetailPage : DetailPage :=
  ⟨some ⟨[⟨none,
    [⟨"S1001", none⟩, ⟨"Title", none⟩, ⟨"by   Sen. Jones  ", none⟩]⟩]⟩⟩

/-- C6 witness: the sponsor extracted from the fixture detail page is
exactly `Sen. Jones`. -/
theorem c6_witness : parseSponsor fixtureDetailPage = .ok "Sen. Jones" := by
  have h := (c6_sponsor_parsing fixtureDetailPage _ _ _ rfl rfl (by decide)).1
  rw [h]
  decide

/-! ## C7 : directory-scan tier -/

/-- The claim's order on candidates: `(year, month, day)`
lexicographically, non-strict. -/
def keyLe (a b : Nat × Nat × Nat) : Prop :=
  a.1 < b.1 ∨ (a.1 = b.1 ∧ (a.2.1 < b.2.1 ∨ (a.2.1 = b.2.1 ∧ a.2.2 ≤ b.2.2)))

/-- `keyLt` decides the strict lexicographic order. -/
lemma keyLt_iff (a b : Nat × Nat × Nat) :
    keyLt a b = true ↔
      (a.1 < b.1 ∨ (a.1 = b.1 ∧ (a.2.1 < b.2.1 ∨ (a.2.1 = b.2.1 ∧ a.2.2 < b.2.2)))) := by
  simp [keyLt]

lemma keyLe_refl (a : Nat × Nat × Nat) : keyLe a a := by
  unfold keyLe
  omega

lemma keyLe_of_keyLt (a b : Nat × Nat × Nat) (h : keyLt a b = true) : keyLe a b := by
  have := (keyLt_iff a b).mp h
  unfold keyLe
  omega

lemma keyLe_of_not_keyLt (a b : Nat × Nat × Nat) (h : keyLt a b = false) :
    keyLe b a := by
  have hnot : ¬(a.1 < b.1 ∨ (a.1 = b.1 ∧ (a.2.1 < b.2.1 ∨ (a.2.1 = b.2.1 ∧ a.2.2 < b.2.2)))) := by
    rw [← keyLt_iff]
    simp [h]
  unfold keyLe
  omega

lemma keyLe_trans (a b c : Nat × Nat × Nat) (h1 : keyLe a b) (h2 : keyLe b c) :
    keyLe a c := by
  unfold keyLe at *
  omega

/-- The fold of `laterOf` returns a member of the candidates whose key
is greatest. -/
lemma foldl_laterOf_spec : ∀ (xs : List String) (x : String),
    xs.foldl laterOf x ∈ x :: xs ∧
    ∀ y ∈ x :: xs, keyLe (dateKey y) (dateKey (xs.foldl laterOf x))
  | [], x => by
    refine ⟨by simp, ?_⟩
    intro y hy
    simp only [List.foldl_nil]
    rw [List.mem_cons] at hy
    rcases hy with rfl | hy
    · exact keyLe_refl _
    · simp at hy
  | d :: ds, x => by
    obtain ⟨hmem, hge⟩ := foldl_laterOf_spec ds (laterOf x d)
    have hxd : laterOf x d = d ∨ laterOf x d = x := by
      unfold laterOf
      split <;> simp
    have hx_le : keyLe (dateKey x) (dateKey (laterOf x d)) := by
      unfold laterOf
      cases hlt : keyLt (dateKey x) (dateKey d)
      · simp only [hlt, Bool.false_eq_true, if_false]
        exact keyLe_refl _
      · simp only [hlt, if_true]
        exact keyLe_of_keyLt _ _ hlt
    have hd_le : keyLe (dateKey d) (dateKey (laterOf x d)) := by
      unfold laterOf
      cases hlt : keyLt (dateKey x) (dateKey d)
      · simp only [hlt, Bool.false_eq_true, if_false]
        exact keyLe_of_not_keyLt _ _ hlt
      · simp only [hlt, if_true]
        exact keyLe_refl _
    refine ⟨?_, ?_⟩
    · simp only [List.foldl_cons]
      rcases List.mem_cons.mp hmem with h | h
      · rcases hxd with h2 | h2 <;> rw [h, h2] <;> simp
      · simp [h]
    · intro y hy
      simp only [List.foldl_cons]
      rcases List.mem_cons.mp hy with rfl | hy'
      · exact keyLe_trans _ _ _ hx_le (hge _ (by simp))
      · rcases List.mem_cons.mp hy' with rfl | hy''
        · exact keyLe_trans _ _ _ hd_le (hge _ (by simp))
        · exact hge _ (by simp [hy''])

/-- The three enriched filenames of the claim's concrete scenario. -/
def c7Files : List String :=
  ["idaho_bills_enriched_01_15_2026.jsonl",
   "idaho_bills_enriched_04_30_2025.jsonl",
   "idaho_bills_enriched_12_01_2025.jsonl"]

/-- C7: the directory-scan tier collects the embedded `MM_DD_YYYY`
identifier of every filename matching the enriched-dataset pattern and
returns an identifier whose `(year, month, day)` tuple is greatest among
them, returning nothing exactly when no filename matches; on the files
carrying `01_15_2026`, `04_30_2025` and `12_01_2025` it selects
`01_15_2026`. -/
theorem c7_directory_scan (files : List String) :
    (_detect_datarun_from_files files = none ↔
      files.filterMap enrichedMatch = []) ∧
    (∀ d, _detect_datarun_from_files files = some d →
      d ∈ files.filterMap enrichedMatch ∧
      ∀ d' ∈ files.filterMap enrichedMatch, keyLe (dateKey d') (dateKey d)) ∧
    _detect_datarun_from_files c7Files = some "01_15_2026" := by
  refine ⟨?_, ?_, by decide⟩
  · cases h : files.filterMap enrichedMatch with
    | nil => simp [_detect_datarun_from_files, pickLatest, h]
    | cons x xs => simp [_detect_datarun_from_files, pickLatest, h]
  · intro d hd
    unfold _detect_datarun_from_files at hd
    cases h : files.filterMap enrichedMatch with
    | nil =>
      rw [h] at hd
      exact absurd hd (by simp [pickLatest])
    | cons x xs =>
      rw [h] at hd
      simp only [pickLatest, Option.some.injEq] at hd
      subst hd
      exact foldl_laterOf_spec xs x

/-- C7 witness: on the three concrete files the selected identifier is a
collected candidate and its key dominates all collected candidates. -/
theorem c7_witness :
    "01_15_2026" ∈ c7Files.filterMap enrichedMatch ∧
    _detect_datarun_from_files c7Files = some "01_15_2026" :=
  ⟨((c7_directory_scan c7Files).2.1 "01_15_2026"
      (c7_directory_scan c7Files).2.2).1,
   (c7_directory_scan c7Files).2.2⟩

/-! ## C8 : persist / resolve round trip -/

/-- Appending one trailing whitespace character does not change the
result of stripping. -/
lemma stripList_append_ws (l : List Char) (c : Char) (hc : pyIsSpace c = true) :
    stripList (l ++ [c]) = stripList l := by
  unfold stripList
  rw [List.dropWhile_append]
  by_cases h : (l.dropWhile pyIsSpace).isEmpty
  · rw [if_pos h]
    have h' : l.dropWhile pyIsSpace = [] := List.isEmpty_iff.mp h
    rw [h', List.dropWhile_cons_of_pos hc]
    simp
  · rw [if_neg h]
    rw [List.reverse_append]
    simp only [List.reverse_cons, List.reverse_nil, List.nil_append,
      List.singleton_append]
    rw [List.dropWhile_cons_of_pos hc]

/-- Stripping absorbs the trailing newline `save_datarun` appends. -/
lemma pyStrip_append_newline (v : String) : pyStrip (v ++ "\n") = pyStrip v := by
  unfold pyStrip
  rw [String.data_append]
  exact congrArg String.mk (stripList_append_ws v.data '\n' (by decide))

/-- C8 (amended): for every `v` that is non-empty after trimming,
`persist(v)` writes the RAW `v` plus a trailing newline to the sidecar
file — the value is not trimmed before writing — creating parent
directories as needed and overwriting previous content; and a subsequent
`resolve()` with the override absent returns exactly the trimmed `v`, so
the round trip of the claim still holds. -/
theorem c8_persist_roundtrip (v : String) (st : ConfigState)
    (hv : pyStrip v ≠ "") :
    (save_datarun v st).sidecar = some (v ++ "\n") ∧
    get_datarun { save_datarun v st with env := none } = .ok (pyStrip v) := by
  refine ⟨rfl, ?_⟩
  simp [get_datarun, envTruthy, sidecarYield, save_datarun,
    pyStrip_append_newline, hv]

/-- C8 counterexample: `persist(" 02_08_2026 ")` writes the raw,
untrimmed value plus a newline, not the trimmed value plus a newline as
the claim states. -/
theorem c8_counterexample :
    (save_datarun " 02_08_2026 " ⟨none, none, []⟩).sidecar =
      some " 02_08_2026 \n" ∧
    some " 02_08_2026 \n" ≠ some (pyStrip " 02_08_2026 " ++ "\n") :=
  ⟨rfl, by decide⟩

/-- C8 witness: the round trip on the padded value `" 02_08_2026 "`. -/
theorem c8_witness :
    (save_datarun " 02_08_2026 " ⟨none, none, []⟩).sidecar =
      some (" 02_08_2026 " ++ "\n") ∧
    get_datarun { save_datarun " 02_08_2026 " ⟨none, none, []⟩ with
      env := none } = .ok (pyStrip " 02_08_2026 ") :=
  c8_persist_roundtrip " 02_08_2026 " ⟨none, none, []⟩ (by decide)

/-! ## C9 : when the sidecar is written during a pipeline run -/

/-- The sponsor loop performs no sidecar writes. -/
lemma countSidecarWrites_detailLoop (oracle : String → Except Unit String) :
    ∀ rs : List BillRecord, countSidecarWrites (detailLoop oracle rs).1 = 0
  | [] => rfl
  | r :: rs => by
    simp only [detailLoop]
    by_cases hl : r.detail_link = ""
    · rw [if_pos hl]
      exact countSidecarWrites_detailLoop oracle rs
    · rw [if_neg hl]
      cases oracle r.detail_link with
      | error e => rfl
      | ok s =>
        simp only [countSidecarWrites, List.countP_cons]
        have ih := countSidecarWrites_detailLoop oracle rs
        simp only [countSidecarWrites] at ih
        simp [ih]

/-- The PDF loop performs no sidecar writes. -/
lemma countSidecarWrites_pdfLoop (oracle : String → Except Unit String) :
    ∀ rs : List BillRecord, countSidecarWrites (pdfLoop oracle rs).1 = 0
  | [] => rfl
  | r :: rs => by
    simp only [pdfLoop]
    cases oracle r.pdf_url with
    | error e => rfl
    | ok s =>
      simp only [countSidecarWrites, List.countP_cons]
      have ih := countSidecarWrites_pdfLoop oracle rs
      simp only [countSidecarWrites] at ih
      simp [ih]

/-- Sidecar-write counting distributes over trace concatenation. -/
lemma countSidecarWrites_append (l1 l2 : List PipeEv) :
    countSidecarWrites (l1 ++ l2) =
      countSidecarWrites l1 + countSidecarWrites l2 :=
  List.countP_append _ _ _

/-- C9 (amended): in every pipeline run the run identifier is persisted
to the sidecar file exactly once per scrape session, and the write
happens at the very start of `main`, before the index fetch — so the
sidecar write still occurs when the scrape subsequently fails, rather
than being withheld until a full successful scrape. -/
theorem c9_sidecar_write_once_at_start (env : Option String) (today : String)
    (indexOutcome : Except Unit (List BillRecord))
    (sOracle pOracle : String → Except Unit String) :
    countSidecarWrites (mainRun env today indexOutcome sOracle pOracle).1 = 1 ∧
    ∃ rest, (mainRun env today indexOutcome sOracle pOracle).1 =
      PipeEv.sidecarWrite (mainDatarun env today) ::
        PipeEv.indexFetch :: rest := by
  have hdl := countSidecarWrites_detailLoop sOracle
  have hpl := countSidecarWrites_pdfLoop pOracle
  unfold mainRun
  cases indexOutcome with
  | error e => exact ⟨rfl, ⟨[.sessionClose], rfl⟩⟩
  | ok records =>
    simp only
    cases h1 : (detailLoop sOracle records).2
    · simp only [Bool.false_eq_true, if_false]
      constructor
      · rw [countSidecarWrites_append, countSidecarWrites_append, hdl records]
        rfl
      · exact ⟨(detailLoop sOracle records).1 ++ [.sessionClose], by simp⟩
    · simp only [if_true]
      cases h2 : (pdfLoop pOracle records).2
      · simp only [Bool.false_eq_true, if_false]
        constructor
        · rw [countSidecarWrites_append, countSidecarWrites_append,
            countSidecarWrites_append, hdl records, hpl records]
          rfl
        · exact ⟨(detailLoop sOracle records).1 ++ (pdfLoop pOracle records).1 ++
            [.sessionClose], by simp⟩
      · simp only [if_true]
        constructor
        · rw [countSidecarWrites_append, countSidecarWrites_append,
            countSidecarWrites_append, hdl records, hpl records]
          rfl
        · exact ⟨(detailLoop sOracle records).1 ++ (pdfLoop pOracle records).1 ++
            [.csvWrite (mainDatarun env today), .sessionClose], by simp⟩

/-- A sponsor oracle that always succeeds, for the C9 counterexample. -/
def okOracle : String → Except Unit String := fun _ => .ok ""

/-- C9 counterexample: when the index fetch fails (the scrape never
completes), the run's trace still contains a sidecar write — performed
before the failure — whereas the claim says no sidecar write occurs when
the scrape fails before completing. -/
theorem c9_counterexample :
    mainRun none "02_08_2026" (.error ()) okOracle okOracle =
      ([.sidecarWrite "02_08_2026", .indexFetch, .sessionClose], false) ∧
    countSidecarWrites
      (mainRun none "02_08_2026" (.error ()) okOracle okOracle).1 = 1 ∧
    (1 : Nat) ≠ 0 :=
  ⟨by decide, by decide, by decide⟩

/-! ## C10 : `download_pdf` writes the streamed body -/

/-- Folding the chunks back together recovers the original byte list
(the chunking is a partition of the body). -/
lemma chunkFuel_foldl_append (n : Nat) (hn : 1 ≤ n) :
    ∀ (fuel : Nat) (s acc : List Nat), s.length ≤ fuel →
      (chunkFuel n fuel s).foldl (fun a c => a ++ c) acc = acc ++ s
  | fuel, [], acc, h => by cases fuel <;> simp [chunkFuel]
  | 0, c :: rest, acc, h => by simp at h
  | fuel + 1, c :: rest, acc, h => by
    simp only [chunkFuel, List.foldl_cons]
    rw [chunkFuel_foldl_append n hn fuel ((c :: rest).drop n)
      (acc ++ (c :: rest).take n)
      (by rw [List.length_drop]; simp only [List.length_cons] at h ⊢; omega)]
    rw [List.append_assoc, List.take_append_drop]

/-- Every chunk the stream yields is at most `n` bytes. -/
lemma chunkFuel_size_le (n : Nat) (hn : 1 ≤ n) :
    ∀ (fuel : Nat) (s : List Nat), s.length ≤ fuel →
      ∀ chunk ∈ chunkFuel n fuel s, chunk.length ≤ n
  | fuel, [], h, chunk, hc => by cases fuel <;> simp [chunkFuel] at hc
  | 0, c :: rest, h, chunk, hc => by simp at h
  | fuel + 1, c :: rest, h, chunk, hc => by
    simp only [chunkFuel, List.mem_cons] at hc
    rcases hc with rfl | hc
    · rw [List.length_take]
      omega
    · exact chunkFuel_size_le n hn fuel ((c :: rest).drop n)
        (by rw [List.length_drop]; simp only [List.length_cons] at h ⊢; omega)
        chunk hc

/-- C10: `download_pdf` writes to the file named by the URL's final path
segment inside the destination directory and returns that path; the
bytes written are the streamed chunks concatenated — exactly the
response body, with every chunk at most 8192 bytes; the write replaces
whatever was previously stored at that path, silently and without
error (the new contents are `some body` for every prior filesystem);
and no other path is touched. -/
theorem c10_download_pdf (fs : String → Option (List Nat))
    (url dirPath : String) (body : List Nat) :
    (download_pdf fs url dirPath body).1 =
      dirPath ++ "/" ++ lastSegment url ∧
    (download_pdf fs url dirPath body).2
      (dirPath ++ "/" ++ lastSegment url) = some body ∧
    (∀ chunk ∈ iterContent CHUNK_SIZE body, chunk.length ≤ CHUNK_SIZE) ∧
    (∀ p, p ≠ dirPath ++ "/" ++ lastSegment url →
      (download_pdf fs url dirPath body).2 p = fs p) := by
  refine ⟨rfl, ?_, ?_, ?_⟩
  · simp only [download_pdf, if_true]
    rw [show iterContent CHUNK_SIZE body = chunkFuel CHUNK_SIZE body.length body
      from rfl]
    rw [chunkFuel_foldl_append CHUNK_SIZE (by decide) body.length body []
      le_rfl]
    rfl
  · exact fun chunk hc =>
      chunkFuel_size_le CHUNK_SIZE (by decide) body.length body le_rfl chunk hc
  · intro p hp
    simp only [download_pdf]
    rw [if_neg hp]

/-- Concrete URL for the C10 witness. -/
def c10Url : String :=
  "https://legislature.idaho.gov/wp-content/uploads/sessioninfo/2026/legislation/H0001.pdf"

/-- C10 witness: downloading a 3-byte body over a filesystem that
already holds `[9, 9]` at the target path replaces the old contents with
the body and leaves a different path untouched. -/
theorem c10_witness :
    (download_pdf (fun _ => some [9, 9]) c10Url "Data/01_01_2026"
      [1, 2, 3]).2 "Data/01_01_2026/H0001.pdf" = some [1, 2, 3] ∧
    (download_pdf (fun _ => some [9, 9]) c10Url "Data/01_01_2026"
      [1, 2, 3]).2 "Data/01_01_2026/S1001.pdf" = some [9, 9] := by
  have h := c10_download_pdf (fun _ => some [9, 9]) c10Url "Data/01_01_2026"
    [1, 2, 3]
  have hpath : "Data/01_01_2026" ++ "/" ++ lastSegment c10Url =
      "Data/01_01_2026/H0001.pdf" := by decide
  constructor
  · rw [← hpath]
    exact h.2.1
  · exact h.2.2.2 "Data/01_01_2026/S1001.pdf" (by rw [hpath]; decide)

end Idaho
